import Mathlib

/-!
Verification of `gbulb/glib_events.py` (m-labs/gbulb), a GLib-based
PEP 3156 event loop adapter.

The development shallowly embeds the loop-state manipulations of
`BaseGlibEventLoop`, `GLibEventLoop`, `GLibHandle`, `GLibChildHandle` and
`BaseGlibEventLoop.DefaultSigINTHandler`.  Handles are represented by
numeric identifiers; callbacks are represented by their observable effects
on the loop state (handles they enqueue via `call_soon`, handles they
cancel, whether they call `loop.stop()`).  Foreign GLib objects (watch
sources, the main loop) are represented by the state this module reads
back from them (attach counts, the main loop's running flag).
-/

namespace Gbulb

/-! ## Child exit status decoding (`GLibChildHandle._callback`)

The Python code decodes the raw `waitpid`-style status word with the
`os.WIFSIGNALED` / `os.WTERMSIG` / `os.WIFEXITED` / `os.WEXITSTATUS`
macros of the Python standard library (external to this repository).
They are embedded below with their POSIX (glibc) semantics on the status
word: the low 7 bits hold the terminating signal (0 for a normal exit,
0x7f for a stopped child), and byte 1 holds the exit status. -/

/-- `os.WTERMSIG(status)`: the low 7 bits of the status word. -/
def WTERMSIG (status : Nat) : Nat := status % 128

/-- `os.WIFSIGNALED(status)`: the low 7 bits are a real signal number
(neither 0 = exited nor 0x7f = stopped). -/
def WIFSIGNALED (status : Nat) : Bool :=
  decide (1 ≤ status % 128) && decide (status % 128 ≤ 126)

/-- `os.WIFEXITED(status)`: the low 7 bits are zero. -/
def WIFEXITED (status : Nat) : Bool := status % 128 == 0

/-- `os.WEXITSTATUS(status)`: byte 1 of the status word. -/
def WEXITSTATUS (status : Nat) : Nat := status / 256 % 256

/-- `GLibChildHandle._callback` (glib_events.py lines 69-88): decode the
raw wait status into the return code appended to the user callback's
arguments.  `none` models the Python `None` ("absent/undefined code"). -/
def childReturncode (status : Nat) : Option Int :=
  if WIFSIGNALED status then
    some (-(WTERMSIG status : Int))
  else if WIFEXITED status then
    let returncode : Int := (WEXITSTATUS status : Int)
    some (if returncode > 128 then 128 - returncode else returncode)
  else
    none

/-! ## Ready queue and dispatcher (`BaseGlibEventLoop._dispatch`)

Handles are numeric identifiers.  The observable effect of invoking a
handle's callback is described by a `CbEnv`: the handles it enqueues with
`call_soon`, the handles it cancels, and whether it calls `loop.stop()`.
The loop state `DS` carries the fields of `BaseGlibEventLoop` /
`GLibEventLoop` that the dispatcher and the run-loop lifecycle read and
write, plus two ghost fields (`executed`, `enteredRun`) recording the
observable trace. -/

/-- Observable effects of the callbacks: for a handle id `h`, `calls h`
are the handles its callback enqueues via `call_soon`, `cancels h` the
handles it cancels, and `stops h` tells whether it calls `loop.stop()`. -/
structure CbEnv where
  calls : Nat → List Nat
  cancels : Nat → List Nat
  stops : Nat → Bool

/-- Loop state.
`ready` is `self._ready` (a FIFO deque: appended on the right, popped on
the left); `cancelled` is the set of handles whose `_cancelled` flag is
set; `handlers` is `self._handlers`; `wakeup` is `self._wakeup is not
None`; `willDispatch` is `self._will_dispatch`; `mainloopRunning` is
`none` when `self._mainloop is None` and `some b` when a mainloop exists
with `is_running() = b`; `interrupted` is `self._interrupted`.
`executed` (the ids run so far, in order) and `enteredRun` (whether
`mainloop.run()` was entered) are ghost trace fields. -/
structure DS where
  ready : List Nat
  cancelled : List Nat
  executed : List Nat
  handlers : List Nat
  wakeup : Bool
  willDispatch : Bool
  mainloopRunning : Option Bool
  interrupted : Bool
  enteredRun : Bool
deriving Repr, DecidableEq

/-- `GLibEventLoop.stop` (lines 585-587): `if self._mainloop is not None:
self._mainloop.quit()`.  Quitting sets the mainloop's running flag to
false; with no mainloop it is a no-op. -/
def stopOp (s : DS) : DS :=
  { s with mainloopRunning := s.mainloopRunning.map (fun _ => false) }

/-- Effect of `handle._run()` for handle `h`: the callback's `call_soon`
calls append to the ready queue (with `_will_dispatch` set, `call_soon`
does not arm the wakeup watch), its cancellations mark handles cancelled,
and it may call `loop.stop()`. -/
def runHandle (E : CbEnv) (h : Nat) (s : DS) : DS :=
  let s1 := { s with
    ready := s.ready ++ E.calls h,
    cancelled := s.cancelled ++ E.cancels h }
  if E.stops h then stopOp s1 else s1

/-- The loop body of `_dispatch` (lines 222-227): `ntodo` iterations, each
popping the leftmost handle and running it unless its `_cancelled` flag is
set.  The fuel `n` is the `ntodo = len(self._ready)` snapshot. -/
def dispatchN (E : CbEnv) : Nat → DS → DS
  | 0, s => s
  | n + 1, s =>
    match s.ready with
    | [] => s
    | h :: rest =>
      let s1 := { s with ready := rest }
      let s2 :=
        if h ∈ s1.cancelled then s1
        else runHandle E h { s1 with executed := s1.executed ++ [h] }
      dispatchN E n s2

/-- `BaseGlibEventLoop._schedule_dispatch` (lines 232-247): returns
immediately when the ready queue is empty or a wakeup watch is already
armed, otherwise arms the zero-delay wakeup watch. -/
def scheduleDispatch (s : DS) : DS :=
  if s.ready = [] ∨ s.wakeup then s else { s with wakeup := true }

/-- `BaseGlibEventLoop._dispatch` (lines 212-230): set `_will_dispatch`,
run the `ntodo` snapshot of the ready queue, re-evaluate the wakeup watch,
clear `_will_dispatch`. -/
def dispatch (E : CbEnv) (s : DS) : DS :=
  let s0 := { s with willDispatch := true }
  let s1 := dispatchN E s0.ready.length s0
  let s2 := scheduleDispatch s1
  { s2 with willDispatch := false }

/-! ### Specification-side characterisation of one dispatch pass. -/

/-- Result of simulating one dispatch pass over the entry snapshot. -/
structure PassOut where
  exec : List Nat
  app : List Nat
  canc : List Nat
  stopped : Bool
deriving Repr, DecidableEq

/-- Structural simulation of one dispatch pass: process the entry
snapshot `r` left to right, threading the cancelled set `c`, collecting
the executed handles, the handles appended by their callbacks, the final
cancelled set, and whether any executed callback called `stop()`. -/
def passSim (E : CbEnv) : List Nat → List Nat → PassOut
  | c, [] => ⟨[], [], c, false⟩
  | c, h :: t =>
    if h ∈ c then passSim E c t
    else
      let o := passSim E (c ++ E.cancels h) t
      ⟨h :: o.exec, E.calls h ++ o.app, o.canc, E.stops h || o.stopped⟩

theorem option_map_false_idem (m : Option Bool) :
    (m.map (fun _ => false)).map (fun _ => false) = m.map (fun _ => false) := by
  cases m <;> rfl

/-- The imperative dispatch loop equals the structural pass simulation:
running `r.length` iterations on a state whose queue is `r ++ rest` pops
exactly the snapshot `r`, leaves `rest` followed by the handles appended
by the executed callbacks, extends the execution trace with the simulated
execution order, ends with the simulated cancelled set, and quits the
mainloop iff some executed callback called `stop()`. -/
theorem dispatchN_eq (E : CbEnv) :
    ∀ (r rest : List Nat) (s : DS), s.ready = r ++ rest →
    dispatchN E r.length s =
      { s with
        ready := rest ++ (passSim E s.cancelled r).app,
        executed := s.executed ++ (passSim E s.cancelled r).exec,
        cancelled := (passSim E s.cancelled r).canc,
        mainloopRunning :=
          if (passSim E s.cancelled r).stopped then
            s.mainloopRunning.map (fun _ => false)
          else s.mainloopRunning } := by
  intro r
  induction r with
  | nil =>
    intro rest s hready
    obtain ⟨rd, cc, ex, hd, wk, wd, ml, it, er⟩ := s
    simp only [List.nil_append] at hready
    subst hready
    simp [dispatchN, passSim]
  | cons h t ih =>
    intro rest s hready
    obtain ⟨rd, cc, ex, hd, wk, wd, ml, it, er⟩ := s
    rw [List.cons_append] at hready
    subst hready
    show dispatchN E (t.length + 1) _ = _
    rw [dispatchN]
    dsimp only
    by_cases hc : h ∈ cc
    · -- cancelled at pop time: skipped
      rw [if_pos hc]
      rw [ih rest ⟨t ++ rest, cc, ex, hd, wk, wd, ml, it, er⟩ rfl]
      simp [passSim, hc]
    · -- executed: the callback's effects apply, then the rest of the pass
      rw [if_neg hc]
      dsimp only [runHandle]
      by_cases hst : E.stops h
      · rw [if_pos hst]
        dsimp only [stopOp]
        rw [ih (rest ++ E.calls h)
          ⟨t ++ rest ++ E.calls h, cc ++ E.cancels h, ex ++ [h], hd, wk,
            wd, ml.map (fun _ => false), it, er⟩
          (by dsimp only; rw [List.append_assoc])]
        simp only [passSim, if_neg hc]
        by_cases ho : (passSim E (cc ++ E.cancels h) t).stopped
        · simp [ho, hst, option_map_false_idem, List.append_assoc]
        · simp [ho, hst, List.append_assoc]
      · rw [if_neg hst]
        rw [ih (rest ++ E.calls h)
          ⟨t ++ rest ++ E.calls h, cc ++ E.cancels h, ex ++ [h], hd, wk,
            wd, ml, it, er⟩
          (by dsimp only; rw [List.append_assoc])]
        simp only [passSim, if_neg hc]
        by_cases ho : (passSim E (cc ++ E.cancels h) t).stopped
        · simp [ho, hst, List.append_assoc]
        · simp [ho, hst, List.append_assoc]

theorem passSim_mem_canc_not_exec (E : CbEnv) (x : Nat) :
    ∀ (r c : List Nat), x ∈ c →
      x ∈ (passSim E c r).canc ∧ x ∉ (passSim E c r).exec := by
  intro r
  induction r with
  | nil => intro c hx; simpa [passSim] using hx
  | cons h t ih =>
    intro c hx
    by_cases hc : h ∈ c
    · simpa [passSim, hc] using ih c hx
    · have hx' : x ∈ c ++ E.cancels h := List.mem_append_left _ hx
      have hne : x ≠ h := fun he => hc (he ▸ hx)
      have := ih (c ++ E.cancels h) hx'
      simp [passSim, hc, hne, this.1, this.2]

theorem passSim_exec_sublist (E : CbEnv) :
    ∀ (r c : List Nat), (passSim E c r).exec.Sublist r := by
  intro r
  induction r with
  | nil => intro c; simp [passSim]
  | cons h t ih =>
    intro c
    by_cases hc : h ∈ c
    · simpa [passSim, hc] using (ih c).cons h
    · simpa [passSim, hc] using (ih (c ++ E.cancels h)).cons₂ h

theorem passSim_app_from_exec (E : CbEnv) :
    ∀ (r c : List Nat) (i : Nat), i ∈ (passSim E c r).app →
      ∃ h, h ∈ (passSim E c r).exec ∧ i ∈ E.calls h := by
  intro r
  induction r with
  | nil => intro c i hi; simp [passSim] at hi
  | cons h t ih =>
    intro c i hi
    by_cases hc : h ∈ c
    · simp only [passSim, if_pos hc] at hi ⊢
      exact ih c i hi
    · simp only [passSim, if_neg hc, List.mem_append] at hi
      rcases hi with hi | hi
      · exact ⟨h, by simp [passSim, hc], hi⟩
      · obtain ⟨g, hg, hig⟩ := ih (c ++ E.cancels h) i hi
        exact ⟨g, by simp [passSim, hc, hg], hig⟩

theorem passSim_stopped_of_exec (E : CbEnv) :
    ∀ (r c : List Nat) (h : Nat), h ∈ (passSim E c r).exec →
      E.stops h = true → (passSim E c r).stopped = true := by
  intro r
  induction r with
  | nil => intro c h hh; simp [passSim] at hh
  | cons g t ih =>
    intro c h hh hs
    by_cases hc : g ∈ c
    · simp only [passSim, if_pos hc] at hh ⊢
      exact ih c h hh hs
    · simp only [passSim, if_neg hc, List.mem_cons] at hh ⊢
      rcases hh with rfl | hh
      · simp [hs]
      · simp [ih (c ++ E.cancels g) h hh hs]

/-- `_dispatch` as a whole: the snapshot loop per `passSim`, followed by
the wakeup-watch re-evaluation, with `_will_dispatch` cleared. -/
theorem dispatch_eq (E : CbEnv) (s : DS) :
    dispatch E s =
      { scheduleDispatch
        { s with
          ready := (passSim E s.cancelled s.ready).app,
          executed := s.executed ++ (passSim E s.cancelled s.ready).exec,
          cancelled := (passSim E s.cancelled s.ready).canc,
          mainloopRunning :=
            if (passSim E s.cancelled s.ready).stopped then
              s.mainloopRunning.map (fun _ => false)
            else s.mainloopRunning }
        with willDispatch := false } := by
  simp only [dispatch]
  rw [dispatchN_eq E s.ready [] { s with willDispatch := true } (by simp)]
  obtain ⟨rd, cc, ex, hd, wk, wd, ml, it, er⟩ := s
  simp only [List.nil_append]
  by_cases hstop : (passSim E cc rd).stopped
  · by_cases hw : (passSim E cc rd).app = [] ∨ wk = true
    · simp [scheduleDispatch, hstop, hw]
    · simp [scheduleDispatch, hstop, hw]
  · by_cases hw : (passSim E cc rd).app = [] ∨ wk = true
    · simp [scheduleDispatch, hstop, hw]
    · simp [scheduleDispatch, hstop, hw]

theorem scheduleDispatch_executed (s : DS) :
    (scheduleDispatch s).executed = s.executed := by
  unfold scheduleDispatch; split <;> rfl

theorem scheduleDispatch_ready (s : DS) :
    (scheduleDispatch s).ready = s.ready := by
  unfold scheduleDispatch; split <;> rfl

theorem scheduleDispatch_cancelled (s : DS) :
    (scheduleDispatch s).cancelled = s.cancelled := by
  unfold scheduleDispatch; split <;> rfl

theorem scheduleDispatch_mainloopRunning (s : DS) :
    (scheduleDispatch s).mainloopRunning = s.mainloopRunning := by
  unfold scheduleDispatch; split <;> rfl

theorem scheduleDispatch_enteredRun (s : DS) :
    (scheduleDispatch s).enteredRun = s.enteredRun := by
  unfold scheduleDispatch; split <;> rfl

theorem scheduleDispatch_interrupted (s : DS) :
    (scheduleDispatch s).interrupted = s.interrupted := by
  unfold scheduleDispatch; split <;> rfl

theorem dispatch_executed (E : CbEnv) (s : DS) :
    (dispatch E s).executed = s.executed ++ (passSim E s.cancelled s.ready).exec := by
  rw [dispatch_eq]
  show (scheduleDispatch _).executed = _
  rw [scheduleDispatch_executed]

theorem dispatch_ready (E : CbEnv) (s : DS) :
    (dispatch E s).ready = (passSim E s.cancelled s.ready).app := by
  rw [dispatch_eq]
  show (scheduleDispatch _).ready = _
  rw [scheduleDispatch_ready]

theorem dispatch_cancelled (E : CbEnv) (s : DS) :
    (dispatch E s).cancelled = (passSim E s.cancelled s.ready).canc := by
  rw [dispatch_eq]
  show (scheduleDispatch _).cancelled = _
  rw [scheduleDispatch_cancelled]

theorem dispatch_mainloopRunning (E : CbEnv) (s : DS) :
    (dispatch E s).mainloopRunning =
      if (passSim E s.cancelled s.ready).stopped then
        s.mainloopRunning.map (fun _ => false)
      else s.mainloopRunning := by
  rw [dispatch_eq]
  show (scheduleDispatch _).mainloopRunning = _
  rw [scheduleDispatch_mainloopRunning]

theorem dispatch_enteredRun (E : CbEnv) (s : DS) :
    (dispatch E s).enteredRun = s.enteredRun := by
  rw [dispatch_eq]
  show (scheduleDispatch _).enteredRun = _
  rw [scheduleDispatch_enteredRun]

theorem dispatch_interrupted (E : CbEnv) (s : DS) :
    (dispatch E s).interrupted = s.interrupted := by
  rw [dispatch_eq]
  show (scheduleDispatch _).interrupted = _
  rw [scheduleDispatch_interrupted]

/-! ## `call_soon` / `call_later` (lines 289-306)

The handle object returned by these methods is described by
`ScheduledHandle`: either a plain `events.Handle` appended to the ready
queue, or a `GLibHandle` wrapping a `GLib.Timeout` foreign watch with its
interval in milliseconds and its repeat flag.  Python delays are floats;
they are embedded as rationals. -/

/-- The handle created by a scheduling call. -/
inductive ScheduledHandle where
  | soon (id : Nat)
  | timer (intervalMs : ℚ) (repeating : Bool) (id : Nat)
deriving Repr, DecidableEq

/-- `BaseGlibEventLoop.call_soon` (lines 289-295): create a plain
`events.Handle` (id `id`), append it to the ready queue, and arm the
wakeup watch unless a dispatch pass is in progress. -/
def call_soon (id : Nat) (s : DS) : DS × ScheduledHandle :=
  let s1 := { s with ready := s.ready ++ [id] }
  (if s1.willDispatch then s1 else scheduleDispatch s1, .soon id)

/-- `BaseGlibEventLoop.call_later` (lines 297-306): a delay ≤ 0 is routed
to `call_soon`; a positive delay creates a non-repeating `GLibHandle`
around `GLib.Timeout(delay*1000 if delay > 0 else 0)`, which is attached
to the context and recorded in `self._handlers` (not in the ready
queue). -/
def call_later (delay : ℚ) (id : Nat) (s : DS) : DS × ScheduledHandle :=
  if delay ≤ 0 then call_soon id s
  else
    ({ s with handlers := s.handlers ++ [id] },
     .timer (if delay > 0 then delay * 1000 else 0) false id)

/-! ## Sequences of loop operations (for the cancellation invariant)

Between dispatch passes the API can append fresh handles (`call_soon`),
cancel handles (`GLibHandle.cancel` / `events.Handle.cancel`), and run
dispatch passes.  `GLibHandle.cancel` (lines 32-35) marks the handle
cancelled, destroys its foreign source and discards it from
`self._handlers`; the handle may still sit in the ready queue, where the
dispatcher skips it. -/

/-- `GLibHandle.cancel` / `events.Handle.cancel` for handle `id`, as seen
by the loop state. -/
def cancelOp (id : Nat) (s : DS) : DS :=
  { s with cancelled := s.cancelled ++ [id], handlers := s.handlers.erase id }

/-- One externally triggered loop operation. -/
inductive LoopOp where
  | dispatchPass
  | callSoon (id : Nat)
  | cancel (id : Nat)
deriving Repr, DecidableEq

/-- Apply one loop operation to the loop state. -/
def applyOp (E : CbEnv) : LoopOp → DS → DS
  | .dispatchPass, s => dispatch E s
  | .callSoon id, s => (call_soon id s).1
  | .cancel id, s => cancelOp id s

/-- Run a sequence of loop operations. -/
def runOps (E : CbEnv) (ops : List LoopOp) (s : DS) : DS :=
  ops.foldl (fun acc op => applyOp E op acc) s

/-! ## `GLibEventLoop.run_forever` / `stop` (lines 553-592) -/

/-- Errors out of `run_forever`. -/
inductive RunError where
  | alreadyRunning
  | interrupted
deriving Repr, DecidableEq

/-- `GLib.MainLoop.run()`: enter the blocking run primitive (recorded in
the ghost flag `enteredRun`); it returns only once `quit()` has been
called, after which `is_running()` is false. -/
def mainloopRun (s : DS) : DS :=
  { s with enteredRun := true, mainloopRunning := some false }

/-- Tail of `run_forever` after the initial dispatch pass (lines
568-583): enter the blocking `l.run()` only if `l.is_running()` still
holds, translate the interrupted flag into `KeyboardInterrupt`, and in
the `finally` block drop the mainloop (`self._mainloop = None`). -/
def runForeverFinish (s2 : DS) : Option RunError × DS :=
  let s3 := if s2.mainloopRunning = some true then mainloopRun s2 else s2
  let s4 := { s3 with mainloopRunning := none }
  if s4.interrupted then (some .interrupted, { s4 with interrupted := false })
  else (none, s4)

/-- `GLibEventLoop.run_forever` (lines 553-583): fail if a mainloop
already exists; otherwise create a fresh mainloop with `is_running()`
initially true, run one dispatch pass, and continue with
`runForeverFinish`. -/
def run_forever (E : CbEnv) (s : DS) : Option RunError × DS :=
  if s.mainloopRunning.isSome then (some .alreadyRunning, s)
  else
    runForeverFinish
      (dispatch E { s with mainloopRunning := some true, enteredRun := false })

theorem runForeverFinish_enteredRun (s2 : DS)
    (hml : s2.mainloopRunning ≠ some true) :
    (runForeverFinish s2).2.enteredRun = s2.enteredRun := by
  unfold runForeverFinish
  rw [if_neg hml]
  dsimp only
  split <;> rfl

theorem call_soon_ready (id : Nat) (s : DS) :
    ((call_soon id s).1).ready = s.ready ++ [id] := by
  unfold call_soon
  dsimp only
  split
  · rfl
  · rw [scheduleDispatch_ready]

theorem call_soon_cancelled (id : Nat) (s : DS) :
    ((call_soon id s).1).cancelled = s.cancelled := by
  unfold call_soon
  dsimp only
  split
  · rfl
  · rw [scheduleDispatch_cancelled]

theorem call_soon_executed (id : Nat) (s : DS) :
    ((call_soon id s).1).executed = s.executed := by
  unfold call_soon
  dsimp only
  split
  · rfl
  · rw [scheduleDispatch_executed]

theorem runOps_cons (E : CbEnv) (op : LoopOp) (t : List LoopOp) (s : DS) :
    runOps E (op :: t) s = runOps E t (applyOp E op s) := rfl

/-- Claim C1: a dispatch pass runs exactly the handles present in the
ready queue at pass entry (as characterised by `passSim`), in the FIFO
order they were appended (the executed trace is a subsequence of the
entry queue), skipping cancelled ones; and every handle that a callback
running inside the pass appended to the ready queue is left pending in
the queue for a later pass, not run in this one. -/
theorem C1_dispatch_snapshot (E : CbEnv) (s : DS)
    (hFresh : ∀ h ∈ s.ready, ∀ i ∈ E.calls h, i ∉ s.ready ∧ i ∉ s.executed) :
    (dispatch E s).executed = s.executed ++ (passSim E s.cancelled s.ready).exec
    ∧ (passSim E s.cancelled s.ready).exec.Sublist s.ready
    ∧ (∀ h ∈ s.cancelled, h ∉ (passSim E s.cancelled s.ready).exec)
    ∧ (dispatch E s).ready = (passSim E s.cancelled s.ready).app
    ∧ (∀ i ∈ (passSim E s.cancelled s.ready).app, i ∉ (dispatch E s).executed) := by
  refine ⟨dispatch_executed E s, passSim_exec_sublist E s.ready s.cancelled, ?_,
    dispatch_ready E s, ?_⟩
  · intro h hh
    exact (passSim_mem_canc_not_exec E h s.ready s.cancelled hh).2
  · intro i hi
    obtain ⟨h, hhex, hic⟩ := passSim_app_from_exec E s.ready s.cancelled i hi
    have hhr : h ∈ s.ready := (passSim_exec_sublist E s.ready s.cancelled).subset hhex
    have hfr := hFresh h hhr i hic
    rw [dispatch_executed]
    intro hmem
    rcases List.mem_append.mp hmem with hm | hm
    · exact hfr.2 hm
    · exact hfr.1 ((passSim_exec_sublist E s.ready s.cancelled).subset hm)

/-- Example callback environment: handle 0 enqueues handle 10, handle 1
cancels handle 2, nobody stops the loop. -/
def exE : CbEnv :=
  ⟨fun h => if h = 0 then [10] else [],
   fun h => if h = 1 then [2] else [],
   fun _ => false⟩

/-- Example loop state: three pending handles, nothing cancelled. -/
def exS : DS := ⟨[0, 1, 2], [], [], [], false, false, none, false, false⟩

theorem C1_dispatch_snapshot_witness :
    (dispatch exE exS).executed = exS.executed ++ (passSim exE exS.cancelled exS.ready).exec
    ∧ (dispatch exE exS).ready = (passSim exE exS.cancelled exS.ready).app :=
  ⟨(C1_dispatch_snapshot exE exS (by decide)).1,
   (C1_dispatch_snapshot exE exS (by decide)).2.2.2.1⟩

/-- Claim C2: a handle cancelled before its callback has been invoked is
never executed by any subsequent sequence of loop operations (dispatch
passes, `call_soon` submissions, further cancellations), no matter how
many passes follow. -/
theorem C2_cancelled_never_runs (E : CbEnv) (s : DS) (id : Nat)
    (ops : List LoopOp) (hc : id ∈ s.cancelled) (hx : id ∉ s.executed) :
    id ∉ (runOps E ops s).executed := by
  induction ops generalizing s with
  | nil => exact hx
  | cons op t ih =>
    rw [runOps_cons]
    have step : id ∈ (applyOp E op s).cancelled ∧ id ∉ (applyOp E op s).executed := by
      cases op with
      | dispatchPass =>
        refine ⟨?_, ?_⟩
        · show id ∈ (dispatch E s).cancelled
          rw [dispatch_cancelled]
          exact (passSim_mem_canc_not_exec E id s.ready s.cancelled hc).1
        · show id ∉ (dispatch E s).executed
          rw [dispatch_executed]
          intro hm
          rcases List.mem_append.mp hm with hm | hm
          · exact hx hm
          · exact (passSim_mem_canc_not_exec E id s.ready s.cancelled hc).2 hm
      | callSoon j =>
        refine ⟨?_, ?_⟩
        · show id ∈ ((call_soon j s).1).cancelled
          rw [call_soon_cancelled]; exact hc
        · show id ∉ ((call_soon j s).1).executed
          rw [call_soon_executed]; exact hx
      | cancel j =>
        exact ⟨List.mem_append_left _ hc, hx⟩
    exact ih (applyOp E op s) step.1 step.2

/-- Example state for the cancellation invariant: handle 7 sits in the
ready queue but is already cancelled. -/
def exS2 : DS := ⟨[7, 8], [7], [], [], false, false, none, false, false⟩

theorem C2_cancelled_never_runs_witness :
    (7 : Nat) ∉ (runOps exE [.dispatchPass, .callSoon 9, .dispatchPass] exS2).executed :=
  C2_cancelled_never_runs exE exS2 7 [.dispatchPass, .callSoon 9, .dispatchPass]
    (by decide) (by decide)

/-- Claim C4: for a delay ≤ 0, `call_later` behaves identically to
`call_soon` (the same plain handle is appended at the same position, the
end of the ready queue); for a positive delay it creates a non-repeating
timer watch with the delay converted to milliseconds, touching neither
the ready queue nor its position in it. -/
theorem C4_call_later_routes (s : DS) (delay : ℚ) (id : Nat) :
    (delay ≤ 0 →
      call_later delay id s = call_soon id s
      ∧ ((call_later delay id s).1).ready = s.ready ++ [id]
      ∧ (call_later delay id s).2 = .soon id)
    ∧ (0 < delay →
      (call_later delay id s).2 = .timer (delay * 1000) false id
      ∧ ((call_later delay id s).1).ready = s.ready
      ∧ ((call_later delay id s).1).handlers = s.handlers ++ [id]) := by
  constructor
  · intro hle
    have h1 : call_later delay id s = call_soon id s := by
      unfold call_later; rw [if_pos hle]
    refine ⟨h1, ?_, ?_⟩
    · rw [h1]; exact call_soon_ready id s
    · rw [h1]; rfl
  · intro hpos
    have hne : ¬ delay ≤ 0 := not_le.mpr hpos
    unfold call_later
    rw [if_neg hne]
    refine ⟨?_, rfl, rfl⟩
    dsimp only
    rw [if_pos hpos]

theorem C4_call_later_routes_witness :
    call_later (-1) 11 exS = call_soon 11 exS
    ∧ (call_later 2 11 exS).2 = .timer (2 * 1000) false 11 :=
  ⟨((C4_call_later_routes exS (-1) 11).1 (by norm_num)).1,
   ((C4_call_later_routes exS 2 11).2 (by norm_num)).1⟩

/-- Claim C7: if `stop()` is called by a callback that runs during the
initial dispatch pass of `run_forever`, the blocking `MainLoop.run()`
primitive is never entered for that `run_forever` call. -/
theorem C7_stop_prevents_blocking_run (E : CbEnv) (s : DS)
    (h1 : s.mainloopRunning = none)
    (h2 : ∃ h, h ∈ (passSim E s.cancelled s.ready).exec ∧ E.stops h = true) :
    (run_forever E s).2.enteredRun = false := by
  obtain ⟨h, hex, hst⟩ := h2
  have hstop : (passSim E s.cancelled s.ready).stopped = true :=
    passSim_stopped_of_exec E s.ready s.cancelled h hex hst
  unfold run_forever
  rw [if_neg (by simp [h1])]
  have hml :
      (dispatch E { s with mainloopRunning := some true, enteredRun := false }).mainloopRunning
        = some false := by
    rw [dispatch_mainloopRunning]
    show (if (passSim E s.cancelled s.ready).stopped then
      ((some true : Option Bool).map fun _ => false) else some true) = some false
    rw [hstop]
    rfl
  rw [runForeverFinish_enteredRun _ (by rw [hml]; simp)]
  rw [dispatch_enteredRun]

/-- Example for the stop-during-dispatch scenario: the only ready
handle's callback calls `loop.stop()`. -/
def exE7 : CbEnv := ⟨fun _ => [], fun _ => [], fun h => h == 0⟩

/-- Example loop state for `run_forever`: one ready handle, no mainloop. -/
def exS7 : DS := ⟨[0], [], [], [], false, false, none, false, false⟩

theorem C7_stop_prevents_blocking_run_witness :
    (run_forever exE7 exS7).2.enteredRun = false :=
  C7_stop_prevents_blocking_run exE7 exS7 rfl ⟨0, by decide, by decide⟩

/-- Claim C3, counterexample: a status word encoding "exited normally
with status 137" decodes to `128 - 137 = -9`, not to `137 - 128 = 9` as
the claim's test scenario asserts. -/
theorem C3_status137_counterexample :
    WIFEXITED (256 * 137) = true
    ∧ WEXITSTATUS (256 * 137) = 137
    ∧ childReturncode (256 * 137) = some (-9)
    ∧ childReturncode (256 * 137) ≠ some 9 := by decide

/-- Claim C3 (amended): the decoder yields the negated terminating signal
number if the child was signaled (signal 9 decodes to -9), the exit
status if the child exited normally except that a status value above 128
is transformed to 128 minus that value, and an absent code otherwise; in
particular a normal exit with status 137 decodes to `128 - 137 = -9` and
a normal exit with status 0 decodes to 0. -/
theorem C3_status_decoding_amended :
    (∀ sg : Nat, 1 ≤ sg → sg ≤ 126 → childReturncode sg = some (-(sg : Int)))
    ∧ (∀ e : Nat, e ≤ 255 → childReturncode (256 * e) =
        some (if 128 < e then (128 : Int) - (e : Int) else (e : Int)))
    ∧ (∀ st : Nat, WIFSIGNALED st = false → WIFEXITED st = false →
        childReturncode st = none)
    ∧ childReturncode (256 * 137) = some (-9)
    ∧ childReturncode 0 = some 0
    ∧ childReturncode 9 = some (-9) := by
  refine ⟨?_, ?_, ?_, by decide, by decide, by decide⟩
  · intro sg h1 h126
    have hm : sg % 128 = sg := Nat.mod_eq_of_lt (by omega)
    unfold childReturncode WIFSIGNALED WTERMSIG
    rw [hm]
    simp [h1, h126]
  · intro e he
    have hm : 256 * e % 128 = 0 := by omega
    have hsig : WIFSIGNALED (256 * e) = false := by
      unfold WIFSIGNALED; rw [hm]; rfl
    have hex : WIFEXITED (256 * e) = true := by
      unfold WIFEXITED; rw [hm]; rfl
    have hws : WEXITSTATUS (256 * e) = e := by
      unfold WEXITSTATUS
      rw [Nat.mul_div_cancel_left e (by norm_num : 0 < 256)]
      exact Nat.mod_eq_of_lt (by omega)
    simp only [childReturncode, hsig, hex, hws, Bool.false_eq_true, if_false,
      if_true]
    congr 1
    by_cases h128 : 128 < e
    · rw [if_pos (by exact_mod_cast h128), if_pos h128]
    · rw [if_neg (by omega), if_neg h128]
  · intro st h1 h2
    simp [childReturncode, h1, h2]

theorem C3_status_decoding_amended_witness :
    childReturncode 9 = some (-((9 : Nat) : Int))
    ∧ childReturncode (256 * 137) =
        some (if 128 < 137 then (128 : Int) - ((137 : Nat) : Int)
              else ((137 : Nat) : Int))
    ∧ childReturncode 127 = none :=
  ⟨C3_status_decoding_amended.1 9 (by decide) (by decide),
   C3_status_decoding_amended.2.1 137 (by decide),
   C3_status_decoding_amended.2.2.1 127 (by decide) (by decide)⟩

/-! ## Registration tables (readers, signal handlers, child handlers)

The tables `self._readers`, `self._sighandlers`, `self._chldhandlers` are
dictionaries from key (fd, signal number, pid) to `GLibHandle` /
`GLibChildHandle` objects.  Handle objects are numeric ids allocated from
`nextId`; `hcb` records each handle's callback, `cancelled` each handle's
`_cancelled` flag, `handlers` is `self._handlers`, and `attachCount` is a
ghost counter of foreign-watch attach operations (`source.attach` /
`GLib.child_watch_add`). -/

structure TState where
  readers : Nat → Option Nat
  sighandlers : Nat → Option Nat
  chldhandlers : Nat → Option Nat
  hcb : Nat → Nat
  cancelled : Nat → Bool
  handlers : List Nat
  nextId : Nat
  attachCount : Nat

/-- `GLibHandle.__init__` (lines 21-30) / `GLibChildHandle.__init__`
success path (lines 58-62): allocate a fresh handle for callback `cb`,
attach its foreign source to the context, and add it to
`self._handlers`.  Returns the new handle's id and the updated state. -/
def newGLibHandle (cb : Nat) (s : TState) : Nat × TState :=
  (s.nextId,
   { s with
     hcb := fun x => if x = s.nextId then cb else s.hcb x,
     handlers := s.nextId :: s.handlers,
     nextId := s.nextId + 1,
     attachCount := s.attachCount + 1 })

/-- `GLibHandle.cancel` (lines 32-35) / `GLibChildHandle.cancel` (lines
64-67): set the `_cancelled` flag, destroy the foreign source, and
discard the handle from `self._handlers`. -/
def cancelHandle (h : Nat) (s : TState) : TState :=
  { s with
    cancelled := fun x => if x = h then true else s.cancelled x,
    handlers := s.handlers.erase h }

/-- `BaseGlibEventLoop.remove_reader` (lines 433-442): pop the entry for
`fd` and cancel it, returning whether one existed. -/
def remove_reader (fd : Nat) (s : TState) : TState × Bool :=
  match s.readers fd with
  | some h =>
    ({ cancelHandle h s with readers := fun x => if x = fd then none else s.readers x },
     true)
  | none => (s, false)

/-- `BaseGlibEventLoop.add_reader` (lines 422-431): remove any existing
registration for `fd`, then store a fresh repeating `GLibHandle` around a
`GLib.unix_fd_source_new(fd, GLib.IO_IN)` watch, keyed by `fd`. -/
def add_reader (fd cb : Nat) (s : TState) : TState :=
  let s1 := (remove_reader fd s).1
  let p := newGLibHandle cb s1
  { p.2 with readers := fun x => if x = fd then some p.1 else p.2.readers x }

/-- Errors raised by the signal-registration methods.  `invalidSignal` is
the range-check error of `_check_signal`; `cannotCatchSIGKILL` is
`RuntimeError("cannot catch SIGKILL")`; `signalNotSupported` is
`ValueError("signal not supported")` (lines 487-491). -/
inductive SigError where
  | invalidSignal
  | cannotCatchSIGKILL
  | signalNotSupported
deriving Repr, DecidableEq

/-- Modelled from the spec: `self._check_signal` is provided by the
repository's `unix_events` module (not included under `src/`); per the
spec it validates the signal number, failing fast with a distinct error
for an unsupported signal number.  It accepts signal numbers in
`range(1, NSIG)`. -/
def checkSignal (nsig sig : Nat) : Bool :=
  decide (1 ≤ sig) && decide (sig < nsig)

/-- `BaseGlibEventLoop.remove_signal_handler` (lines 496-503): check the
signal, pop the entry for `sig` and cancel it, returning whether one
existed. -/
def remove_signal_handler (nsig sig : Nat) (s : TState) :
    TState × Option SigError × Bool :=
  if checkSignal nsig sig then
    match s.sighandlers sig with
    | some h =>
      ({ cancelHandle h s with
         sighandlers := fun x => if x = sig then none else s.sighandlers x },
       none, true)
    | none => (s, none, false)
  else (s, some .invalidSignal, false)

/-- `BaseGlibEventLoop.add_signal_handler` (lines 482-494): check the
signal, remove any existing registration, then create the foreign signal
watch; `GLib.unix_signal_source_new(sig)` returns `None` exactly for the
signals the foreign library does not support (`supported` is that fixed
capability of the foreign library), in which case a distinct error is
raised for SIGKILL (signal 9) versus other unsupported signals; otherwise
store a fresh repeating `GLibHandle` keyed by `sig`. -/
def add_signal_handler (supported : Nat → Bool) (nsig sig cb : Nat)
    (s : TState) : TState × Option SigError :=
  if checkSignal nsig sig then
    let s1 := (remove_signal_handler nsig sig s).1
    if supported sig then
      let p := newGLibHandle cb s1
      ({ p.2 with sighandlers := fun x => if x = sig then some p.1 else p.2.sighandlers x },
       none)
    else if sig = 9 then (s1, some .cannotCatchSIGKILL)
    else (s1, some .signalNotSupported)
  else (s, some .invalidSignal)

/-- Error raised by `GLibChildHandle.__init__` (lines 56-57) when the
loop's context is not the GLib default context:
`RuntimeError("Children processes cannot be monitored outside the main
event loop")`. -/
inductive ChildError where
  | notMainContext
deriving Repr, DecidableEq

/-- `BaseGlibEventLoop._remove_child_handler` (lines 511-517): pop the
entry for `pid` and cancel it, returning whether one existed. -/
def remove_child_handler (pid : Nat) (s : TState) : TState × Bool :=
  match s.chldhandlers pid with
  | some h =>
    ({ cancelHandle h s with
       chldhandlers := fun x => if x = pid then none else s.chldhandlers x },
     true)
  | none => (s, false)

/-- `BaseGlibEventLoop._add_child_handler` (lines 505-509) together with
`GLibChildHandle.__init__` (lines 54-62): remove any existing entry for
`pid`, then construct the child handle, which first checks that the
loop's context is the process default context and raises before the
`GLib.child_watch_add` watch is attached and before the table entry is
stored. -/
def add_child_handler (isDefaultContext : Bool) (pid cb : Nat)
    (s : TState) : TState × Option ChildError :=
  let s1 := (remove_child_handler pid s).1
  if isDefaultContext then
    let p := newGLibHandle cb s1
    ({ p.2 with chldhandlers := fun x => if x = pid then some p.1 else p.2.chldhandlers x },
     none)
  else (s1, some .notMainContext)

/-- Claim C5: `add_reader(fd, cb2)` over an existing registration cancels
the prior handle and leaves exactly one active registration for `fd`,
using `cb2` (shown after `add_reader fd cb1` which registers handle
`s.nextId`: the second add registers the fresh, uncancelled handle
`s.nextId + 1` carrying `cb2` and cancels `s.nextId`); and
`remove_reader fd` cancels and removes the entry and returns true when a
registration existed, and returns false leaving the state unchanged
otherwise. -/
theorem C5_reader_registration (s : TState) (fd cb1 cb2 : Nat)
    (hfr2 : s.cancelled (s.nextId + 1) = false)
    (hbound : ∀ h, s.readers fd = some h → h < s.nextId) :
    ((add_reader fd cb2 (add_reader fd cb1 s)).readers fd = some (s.nextId + 1)
     ∧ (add_reader fd cb2 (add_reader fd cb1 s)).hcb (s.nextId + 1) = cb2
     ∧ (add_reader fd cb2 (add_reader fd cb1 s)).cancelled (s.nextId + 1) = false
     ∧ (add_reader fd cb1 s).readers fd = some s.nextId
     ∧ (add_reader fd cb1 s).hcb s.nextId = cb1
     ∧ (add_reader fd cb2 (add_reader fd cb1 s)).cancelled s.nextId = true)
    ∧ (∀ h, s.readers fd = some h →
        (remove_reader fd s).2 = true
        ∧ ((remove_reader fd s).1).readers fd = none
        ∧ ((remove_reader fd s).1).cancelled h = true)
    ∧ (s.readers fd = none → remove_reader fd s = (s, false)) := by
  have hne2 : s.nextId + 1 ≠ s.nextId := by omega
  refine ⟨?_, ?_, ?_⟩
  · cases hs : s.readers fd with
    | none =>
      simp [add_reader, remove_reader, newGLibHandle, cancelHandle, hs, hne2,
        hfr2]
    | some h0 =>
      have hlt := hbound h0 hs
      have hne0 : s.nextId + 1 ≠ h0 := by omega
      have hne1 : s.nextId ≠ h0 := by omega
      simp [add_reader, remove_reader, newGLibHandle, cancelHandle, hs, hne2,
        hne0, hne1, hfr2]
  · intro h hs
    simp [remove_reader, cancelHandle, hs]
  · intro hs
    simp [remove_reader, hs]

/-- Concrete table state: fd 3 is registered with handle 0. -/
def exT : TState :=
  ⟨fun f => if f = 3 then some 0 else none, fun _ => none, fun _ => none,
   fun _ => 0, fun _ => false, [0], 1, 1⟩

theorem C5_reader_registration_witness :
    (add_reader 3 21 (add_reader 3 20 exT)).readers 3 = some (exT.nextId + 1)
    ∧ (add_reader 3 21 (add_reader 3 20 exT)).hcb (exT.nextId + 1) = 21
    ∧ (add_reader 3 21 (add_reader 3 20 exT)).cancelled (exT.nextId + 1) = false
    ∧ (remove_reader 3 exT).2 = true :=
  have base := C5_reader_registration exT 3 20 21 (by decide)
    (by
      intro h hh
      simp only [exT] at hh ⊢
      simp at hh
      omega)
  ⟨base.1.1, base.1.2.1, base.1.2.2.1, (base.2.1 0 (by decide)).1⟩

/-- Invariant justifying claim C6: every registered signal handler is for
a signal the foreign library supports (a registration can only have been
created by a successful `add_signal_handler`, which requires
`GLib.unix_signal_source_new` to succeed). -/
def SigInv (supported : Nat → Bool) (s : TState) : Prop :=
  ∀ g h, s.sighandlers g = some h → supported g = true

/-- Claim C6: `add_signal_handler` raises one distinct error for the
uncatchable SIGKILL (signal 9) and a different distinct error for an
unsupported signal number, and in both failure cases the signal-handler
table (hence any previously registered handler for that signal) is
exactly as before the call. -/
theorem C6_signal_validation (supported : Nat → Bool) (nsig cb : Nat)
    (s : TState) (hK : supported 9 = false) (hInv : SigInv supported s) :
    (checkSignal nsig 9 = true →
      add_signal_handler supported nsig 9 cb s = (s, some .cannotCatchSIGKILL))
    ∧ (∀ sig, checkSignal nsig sig = true → supported sig = false → sig ≠ 9 →
        add_signal_handler supported nsig sig cb s = (s, some .signalNotSupported))
    ∧ SigError.cannotCatchSIGKILL ≠ SigError.signalNotSupported := by
  have hrm : ∀ sig, checkSignal nsig sig = true → supported sig = false →
      (remove_signal_handler nsig sig s).1 = s := by
    intro sig hchk hsup
    unfold remove_signal_handler
    rw [if_pos hchk]
    cases hs : s.sighandlers sig with
    | none => rfl
    | some h =>
      have := hInv sig h hs
      rw [this] at hsup
      cases hsup
  refine ⟨?_, ?_, by decide⟩
  · intro hchk
    unfold add_signal_handler
    rw [if_pos hchk, hrm 9 hchk hK]
    simp [hK]
  · intro sig hchk hsup hne
    unfold add_signal_handler
    rw [if_pos hchk, hrm sig hchk hsup]
    simp [hsup, hne]

theorem C6_signal_validation_witness :
    add_signal_handler (fun g => g == 2) 65 9 30 exT =
      (exT, some .cannotCatchSIGKILL)
    ∧ add_signal_handler (fun g => g == 2) 65 11 30 exT =
      (exT, some .signalNotSupported) :=
  have base := C6_signal_validation (fun g => g == 2) 65 30 exT (by decide)
    (by intro g h hg; simp [exT] at hg)
  ⟨base.1 (by decide), base.2.1 11 (by decide) (by decide) (by decide)⟩

/-- Claim C9: registering a child-process watch on a loop whose context
is not the process default context fails synchronously with the usage
error, and when the call returns no watch has been attached
(`attachCount` unchanged) and no table entry exists for that pid. -/
theorem C9_child_handler_context (pid cb : Nat) (s : TState) :
    (add_child_handler false pid cb s).2 = some .notMainContext
    ∧ ((add_child_handler false pid cb s).1).chldhandlers pid = none
    ∧ ((add_child_handler false pid cb s).1).attachCount = s.attachCount := by
  unfold add_child_handler
  cases hs : s.chldhandlers pid with
  | none => simp [remove_child_handler, hs]
  | some h => simp [remove_child_handler, cancelHandle, hs]

/-! ## `run_until_complete` (lines 251-270 and 532-551)

The future/task machinery comes from the external async-task runtime
(spec section 6): a Future-like container with done-callback
registration/removal and result/exception retrieval.  `FutState.value`
is `none` while the task is pending and `some` its outcome once done
(`done()` is `value.isSome`); `callbacks` is the list of registered
done-callbacks (ids).  `tasks.async` (wrap the awaitable as a task on
this loop) is the identity on an already-wrapped task and is elided.
`run_forever` is abstracted as an arbitrary evolution `runEff` of the
future's state, covering both completion and an external `stop()`. -/

structure FutState where
  value : Option (Except Nat Nat)
  callbacks : List Nat

/-- `future.add_done_callback(fn)`. -/
def add_done_callback (c : Nat) (f : FutState) : FutState :=
  { f with callbacks := f.callbacks ++ [c] }

/-- `future.remove_done_callback(fn)`: removes every occurrence. -/
def remove_done_callback (c : Nat) (f : FutState) : FutState :=
  { f with callbacks := f.callbacks.filter (fun x => x ≠ c) }

/-- Outcome of `run_until_complete`: the task's result, the task's
propagated exception, or the distinct
`RuntimeError('Event loop stopped before Future completed.')`. -/
inductive RucOutcome where
  | result (r : Nat)
  | taskError (e : Nat)
  | incomplete
deriving Repr, DecidableEq

/-- `BaseGlibEventLoop.run_until_complete` (lines 251-270; the override
at lines 532-551 is identical): install the done-callback `stopCb` (the
closure that calls `self.stop()`), call `run_forever` (abstracted as
`runEff`), remove the callback in the `finally` block, then raise the
incomplete-result error if the future is not done, otherwise return its
result or propagate its exception. -/
def run_until_complete (runEff : FutState → FutState) (stopCb : Nat)
    (f : FutState) : RucOutcome × FutState :=
  let f2 := runEff (add_done_callback stopCb f)
  let f3 := remove_done_callback stopCb f2
  match f3.value with
  | none => (.incomplete, f3)
  | some (Except.ok r) => (.result r, f3)
  | some (Except.error e) => (.taskError e, f3)

theorem filter_ne_of_not_mem (c : Nat) (l : List Nat) (hl : c ∉ l) :
    l.filter (fun x => x ≠ c) = l := by
  apply List.filter_eq_self.mpr
  intro a ha
  have hne : a ≠ c := fun he => hl (he ▸ ha)
  simpa using hne

/-- Claim C8: `run_until_complete` returns the task's result `R` when the
task completed with `R` before the loop stopped, yields the task's
exception when it failed, and yields the distinct incomplete-result error
when the loop stopped before completion; in every case the stop-calling
done-callback has been removed when the call returns.  (`runEff` models
`run_forever`; it completes the task but does not touch the callback
list, and `stopCb` is the fresh closure created by the call.) -/
theorem C8_run_until_complete (runEff : FutState → FutState) (stopCb : Nat)
    (f : FutState)
    (hcb : ∀ g, (runEff g).callbacks = g.callbacks)
    (hfresh : stopCb ∉ f.callbacks) :
    ((runEff (add_done_callback stopCb f)).value = none →
      (run_until_complete runEff stopCb f).1 = .incomplete)
    ∧ (∀ r, (runEff (add_done_callback stopCb f)).value = some (Except.ok r) →
        (run_until_complete runEff stopCb f).1 = .result r)
    ∧ (∀ e, (runEff (add_done_callback stopCb f)).value = some (Except.error e) →
        (run_until_complete runEff stopCb f).1 = .taskError e)
    ∧ ((run_until_complete runEff stopCb f).2).callbacks = f.callbacks
    ∧ stopCb ∉ ((run_until_complete runEff stopCb f).2).callbacks
    ∧ (∀ r, RucOutcome.incomplete ≠ RucOutcome.result r)
    ∧ (∀ e, RucOutcome.incomplete ≠ RucOutcome.taskError e) := by
  have hcallbacks :
      ((run_until_complete runEff stopCb f).2).callbacks = f.callbacks := by
    unfold run_until_complete
    have hrm :
        (remove_done_callback stopCb (runEff (add_done_callback stopCb f))).callbacks
          = f.callbacks := by
      unfold remove_done_callback
      rw [hcb]
      show (f.callbacks ++ [stopCb]).filter (fun x => x ≠ stopCb) = f.callbacks
      rw [List.filter_append, filter_ne_of_not_mem stopCb f.callbacks hfresh]
      simp [List.filter]
    dsimp only
    split <;> simpa using hrm
  refine ⟨?_, ?_, ?_, hcallbacks, ?_,
    fun r h => RucOutcome.noConfusion h, fun e h => RucOutcome.noConfusion h⟩
  · intro hv
    unfold run_until_complete
    dsimp only
    rw [show (remove_done_callback stopCb (runEff (add_done_callback stopCb f))).value
        = (runEff (add_done_callback stopCb f)).value from rfl, hv]
  · intro r hv
    unfold run_until_complete
    dsimp only
    rw [show (remove_done_callback stopCb (runEff (add_done_callback stopCb f))).value
        = (runEff (add_done_callback stopCb f)).value from rfl, hv]
  · intro e hv
    unfold run_until_complete
    dsimp only
    rw [show (remove_done_callback stopCb (runEff (add_done_callback stopCb f))).value
        = (runEff (add_done_callback stopCb f)).value from rfl, hv]
  · rw [hcallbacks]; exact hfresh

/-- Example `run_forever` effect: the task completes with result 42. -/
def exRunEff : FutState → FutState :=
  fun g => { g with value := some (Except.ok 42) }

/-- Example pending future with two unrelated done-callbacks. -/
def exFut : FutState := ⟨none, [1, 2]⟩

theorem C8_run_until_complete_witness :
    (run_until_complete exRunEff 5 exFut).1 = .result 42
    ∧ ((run_until_complete exRunEff 5 exFut).2).callbacks = exFut.callbacks :=
  have base := C8_run_until_complete exRunEff 5 exFut (fun g => rfl) (by decide)
  ⟨base.2.1 42 rfl, base.2.2.2.1⟩

/-! ## Default-interrupt (SIGINT) multiplexer (lines 150-184) and `close`

`DefaultSigINTHandler._loop` is `None` or a weak reference to the most
recently attached loop; a weak reference is modelled as `Option Nat`
(`none` when the referent has been collected). -/

/-- `DefaultSigINTHandler.attach` (lines 159-167): after an optional
warning, stores a weak reference to `loop`, unconditionally replacing the
previous attachment. -/
def sigint_attach (loopId : Nat) (_m : Option (Option Nat)) :
    Option (Option Nat) :=
  some (some loopId)

/-- `DefaultSigINTHandler.detach` (lines 169-173): clears the stored
reference only when one is stored and it dereferences to the detaching
loop itself. -/
def sigint_detach (loopId : Nat) (m : Option (Option Nat)) :
    Option (Option Nat) :=
  match m with
  | none => none
  | some r => if r = some loopId then none else some r

/-- State touched by `BaseGlibEventLoop.close`: the loop's handle set
(with each handle's cancelled flag) and the multiplexer's attachment. -/
structure CloseState where
  handlers : List Nat
  cancelled : Nat → Bool
  sigintLoop : Option (Option Nat)

/-- `BaseGlibEventLoop.close` (lines 281-286): cancel every outstanding
handle in `self._handlers` (each cancel sets the flag and discards the
handle), then detach from the default-SIGINT multiplexer. -/
def loop_close (loopId : Nat) (s : CloseState) : CloseState :=
  let s1 := s.handlers.foldl
    (fun acc h =>
      { acc with
        cancelled := fun x => if x = h then true else acc.cancelled x,
        handlers := acc.handlers.erase h })
    s
  { s1 with sigintLoop := sigint_detach loopId s1.sigintLoop }

theorem loop_close_foldl_sigintLoop :
    ∀ (l : List Nat) (acc : CloseState),
      (l.foldl
        (fun acc h =>
          { acc with
            cancelled := fun x => if x = h then true else acc.cancelled x,
            handlers := acc.handlers.erase h })
        acc).sigintLoop = acc.sigintLoop := by
  intro l
  induction l with
  | nil => intro acc; rfl
  | cons a t ih => intro acc; rw [List.foldl_cons, ih]

/-- Claim C10: detaching a loop from the default-SIGINT multiplexer —
including via `close()` — clears the attachment exactly when the
detaching loop is the most recently attached one; detaching any other
loop (including when the stored weak reference is dead) leaves the
attachment unchanged, so the newest attachment survives the teardown of
older loops. -/
theorem C10_sigint_detach_newest (m : Option (Option Nat))
    (l l1 l2 : Nat) (s : CloseState) :
    sigint_detach l (some (some l)) = none
    ∧ (m ≠ some (some l) → sigint_detach l m = m)
    ∧ (loop_close l s).sigintLoop = sigint_detach l s.sigintLoop
    ∧ (l1 ≠ l2 → sigint_detach l1 (sigint_attach l2 m) = sigint_attach l2 m) := by
  refine ⟨by simp [sigint_detach], ?_, ?_, ?_⟩
  · intro hne
    cases m with
    | none => rfl
    | some r =>
      show (if r = some l then none else some r) = some r
      rw [if_neg]
      intro hr
      exact hne (by rw [hr])
  · simp only [loop_close]
    rw [loop_close_foldl_sigintLoop]
  · intro hne
    show (if some l2 = some l1 then none else some (some l2)) = some (some l2)
    rw [if_neg]
    simp [Ne.symm hne]

theorem C10_sigint_detach_newest_witness :
    sigint_detach 1 (some (some 2)) = some (some 2)
    ∧ sigint_detach 1 (sigint_attach 2 none) = sigint_attach 2 none :=
  have base := C10_sigint_detach_newest (some (some 2)) 1 1 2
    ⟨[], fun _ => false, none⟩
  ⟨base.2.1 (by decide), base.2.2.2 (by decide)⟩

end Gbulb
